import Mathlib

/-
  Verification of the WorkWeek scheduler core (workweek module: Task model,
  parse_datetime, save_tasks/load_tasks, add) and of the recurrence engine
  used by the GUI front end, against a shallow embedding in Lean.
-/

namespace WorkWeek

/-- Naive local wall-clock timestamp; models Python `datetime.datetime`
(which the program uses without timezone information throughout). -/
structure DateTime where
  year : Nat
  month : Nat
  day : Nat
  hour : Nat
  minute : Nat
  second : Nat
  microsecond : Nat
deriving DecidableEq, Repr

/-- Field ranges guaranteed by Python `datetime` objects (day is checked
against 31 only; the month-dependent upper bound is not needed here). -/
def DateTime.Valid (d : DateTime) : Prop :=
  1 ≤ d.year ∧ d.year ≤ 9999 ∧ 1 ≤ d.month ∧ d.month ≤ 12 ∧ 1 ≤ d.day ∧ d.day ≤ 31 ∧
  d.hour ≤ 23 ∧ d.minute ≤ 59 ∧ d.second ≤ 59 ∧ d.microsecond ≤ 999999

instance : DecidablePred DateTime.Valid := fun d => by
  unfold DateTime.Valid
  infer_instance

/-- The decimal digit character for `n % 10`. -/
def digitChar : Nat → Char
  | 0 => '0'
  | 1 => '1'
  | 2 => '2'
  | 3 => '3'
  | 4 => '4'
  | 5 => '5'
  | 6 => '6'
  | 7 => '7'
  | 8 => '8'
  | 9 => '9'
  | _ + 10 => '*'

/-- Whether a character is a decimal digit. -/
def isDigitChar (c : Char) : Bool := decide (48 ≤ c.toNat ∧ c.toNat ≤ 57)

/-- Zero-padded `k`-digit decimal rendering of `n` (faithful for `n < 10 ^ k`);
models the `%0kd` fields of `datetime.isoformat`. -/
def pad : Nat → Nat → List Char
  | 0, _ => []
  | k + 1, n => pad k (n / 10) ++ [digitChar (n % 10)]

/-- Decimal value of a digit string. -/
def readNat (cs : List Char) : Nat :=
  cs.foldl (fun a c => 10 * a + (c.toNat - 48)) 0

/-- Consume exactly `k` digit characters from the front, returning their value
and the remainder. -/
def readFixed (k : Nat) (cs : List Char) : Option (Nat × List Char) :=
  if (cs.take k).length = k ∧ (cs.take k).all isDigitChar then
    some (readNat (cs.take k), cs.drop k)
  else none

/-- Consume one expected character from the front. -/
def expect (c : Char) : List Char → Option (List Char)
  | [] => none
  | x :: xs => if x = c then some xs else none

/-- Models Python `datetime.isoformat()`: `YYYY-MM-DDTHH:MM:SS` with a
`.ffffff` fraction appended exactly when the microsecond field is nonzero. -/
def isoformatChars (d : DateTime) : List Char :=
  pad 4 d.year ++ '-' :: (pad 2 d.month ++ '-' :: (pad 2 d.day ++ 'T' ::
    (pad 2 d.hour ++ ':' :: (pad 2 d.minute ++ ':' :: (pad 2 d.second ++
    (if d.microsecond = 0 then [] else '.' :: pad 6 d.microsecond))))))

/-- String form of `isoformatChars`. -/
def isoformat (d : DateTime) : String := String.mk (isoformatChars d)

/-- Models Python `datetime.fromisoformat` on the grammar that
`datetime.isoformat` emits (`YYYY-MM-DDTHH:MM:SS[.ffffff]`), including the
range checks a real `datetime` constructor performs (day checked against 31
only). -/
def fromisoformat (s : String) : Option DateTime := do
  let (y, r1) ← readFixed 4 s.data
  let r2 ← expect '-' r1
  let (mo, r3) ← readFixed 2 r2
  let r4 ← expect '-' r3
  let (da, r5) ← readFixed 2 r4
  let r6 ← expect 'T' r5
  let (h, r7) ← readFixed 2 r6
  let r8 ← expect ':' r7
  let (mi, r9) ← readFixed 2 r8
  let r10 ← expect ':' r9
  let (sec, r11) ← readFixed 2 r10
  let (us, rest) ← (match r11 with
    | [] => some (0, ([] : List Char))
    | c :: cs => if c = '.' then readFixed 6 cs else none)
  let d : DateTime := ⟨y, mo, da, h, mi, sec, us⟩
  if rest = [] ∧ d.Valid then some d else none

/-- Python values as they occur in the decoded store file and in the per-record
processing of load_tasks. `vdt` is a datetime object — introduced by the
normalization steps and by in-memory Task fields, never produced by JSON
decoding. -/
inductive Value where
  | vnull
  | vbool (b : Bool)
  | vint (n : Int)
  | vstr (s : String)
  | vdt (d : DateTime)
  | varr (xs : List Value)
  | vobj (fields : List (String × Value))

/-- The Task model (pydantic BaseModel, WORKWEEKCODE.py lines 24-39): `id` str,
`title` str with min_length 1, optional `when`/`category`, `done` defaulting to
false, `created_at` defaulting to datetime.utcnow(). -/
structure Task where
  id : String
  title : String
  when : Option DateTime
  category : Option String
  done : Bool
  created_at : DateTime
deriving DecidableEq, Repr

/-- The six field names the Task model declares; `model_config extra forbid`
rejects every other key at construction. -/
def allowedKeys : List String := ["id", "title", "when", "category", "done", "created_at"]

/-- Python truthiness of a value (the `item["when"]` test on line 121). -/
def truthy : Value → Bool
  | .vnull => false
  | .vbool b => b
  | .vint n => n != 0
  | .vstr s => s != ""
  | .vdt _ => true
  | .varr xs => !xs.isEmpty
  | .vobj fs => !fs.isEmpty

/-- Dictionary lookup `item[k]` / `k in item` on a decoded record. -/
def lookupField (fs : List (String × Value)) (k : String) : Option Value :=
  (fs.find? (fun p => p.1 == k)).map (fun p => p.2)

/-- Dictionary update `item[k] = v` for a key already present. -/
def setField (fs : List (String × Value)) (k : String) (v : Value) : List (String × Value) :=
  fs.map (fun p => if p.1 == k then (p.1, v) else p)

/-- Models pydantic validation of `Task(**item)` for this model (v2, lax mode):
extra keys rejected, `id`/`title` required strings with `title` nonempty,
`when` an optional datetime (ISO strings accepted, modelled by
`fromisoformat`), `category` an optional string, `done` a bool (0/1 ints
accepted in lax mode) defaulting to false, `created_at` a datetime defaulting
to `datetime.utcnow()` — the `nowUtc` argument. -/
def validateTask (fs : List (String × Value)) (nowUtc : DateTime) : Except String Task :=
  if !(fs.all (fun p => allowedKeys.contains p.1)) then
    .error "ValidationError: extra fields not permitted"
  else do
    let idv ← (match lookupField fs "id" with
      | some (.vstr s) => Except.ok s
      | some _ => Except.error "ValidationError: id must be a string"
      | none => Except.error "ValidationError: id field required")
    let titlev ← (match lookupField fs "title" with
      | some (.vstr s) =>
          if s = "" then Except.error "ValidationError: title too short" else Except.ok s
      | some _ => Except.error "ValidationError: title must be a string"
      | none => Except.error "ValidationError: title field required")
    let whenv ← (match lookupField fs "when" with
      | none => Except.ok none
      | some .vnull => Except.ok none
      | some (.vdt d) => Except.ok (some d)
      | some (.vstr s) => (match fromisoformat s with
          | some d => Except.ok (some d)
          | none => Except.error "ValidationError: when must be a valid datetime")
      | some _ => Except.error "ValidationError: when must be a datetime")
    let catv ← (match lookupField fs "category" with
      | none => Except.ok none
      | some .vnull => Except.ok none
      | some (.vstr s) => Except.ok (some s)
      | some _ => Except.error "ValidationError: category must be a string")
    let donev ← (match lookupField fs "done" with
      | none => Except.ok false
      | some (.vbool b) => Except.ok b
      | some (.vint 0) => Except.ok false
      | some (.vint 1) => Except.ok true
      | some _ => Except.error "ValidationError: done must be a boolean")
    let createdv ← (match lookupField fs "created_at" with
      | none => Except.ok nowUtc
      | some (.vdt d) => Except.ok d
      | some (.vstr s) => (match fromisoformat s with
          | some d => Except.ok d
          | none => Except.error "ValidationError: created_at must be a valid datetime")
      | some _ => Except.error "ValidationError: created_at must be a datetime")
    Except.ok ⟨idv, titlev, whenv, catv, donev, createdv⟩

/-- Lines 118-119 of load_tasks: integer ids (bools are an int subclass in
Python) are coerced to their string representation. -/
def coerceId (fs : List (String × Value)) : List (String × Value) :=
  match lookupField fs "id" with
  | some (.vint n) => setField fs "id" (.vstr (toString n))
  | some (.vbool b) => setField fs "id" (.vstr (if b then "True" else "False"))
  | _ => fs

/-- Lines 121-126 of load_tasks: a present, truthy "when" is replaced by the
parsed datetime, or by None when `datetime.fromisoformat` raises (it raises
TypeError on every non-string value; the handler catches any Exception). -/
def normWhen (fs : List (String × Value)) : List (String × Value) :=
  match lookupField fs "when" with
  | some w =>
      if truthy w then
        setField fs "when" (match w with
          | .vstr s => (match fromisoformat s with
              | some d => .vdt d
              | none => .vnull)
          | _ => .vnull)
      else fs
  | none => fs

/-- Lines 127-131 of load_tasks: same for "created_at", except a parse failure
regenerates the timestamp as datetime.utcnow(). -/
def normCreated (fs : List (String × Value)) (nowUtc : DateTime) : List (String × Value) :=
  match lookupField fs "created_at" with
  | some w =>
      if truthy w then
        setField fs "created_at" (match w with
          | .vstr s => (match fromisoformat s with
              | some d => .vdt d
              | none => .vdt nowUtc)
          | _ => .vdt nowUtc)
      else fs
  | none => fs

/-- Whether `needle` is a prefix of `hay` (character lists). -/
def listHasPrefix : List Char → List Char → Bool
  | [], _ => true
  | _ :: _, [] => false
  | a :: as, b :: bs => a == b && listHasPrefix as bs

/-- Whether `needle` occurs as a contiguous sublist of the second argument. -/
def listContainsSub (needle : List Char) : List Char → Bool
  | [] => listHasPrefix needle []
  | c :: cs => listHasPrefix needle (c :: cs) || listContainsSub needle cs

/-- Python `needle in hay` on strings: substring containment. -/
def strContains (needle hay : String) : Bool := listContainsSub needle.data hay.data

/-- One iteration of the `for item in data` loop (lines 116-132): id coercion
and timestamp normalization, then `Task(**item)`. A string item hits TypeError
at the first string-subscription its substrings allow, or at the `**`
unpacking; list and scalar items raise TypeError as well. -/
def decodeItem (nowUtc : DateTime) : Value → Except String Task
  | .vobj fs => validateTask (normCreated (normWhen (coerceId fs)) nowUtc) nowUtc
  | .vstr s =>
      if strContains "id" s then Except.error "TypeError: string indices must be integers"
      else if strContains "when" s then Except.error "TypeError: string indices must be integers"
      else if strContains "created_at" s then
        Except.error "TypeError: string indices must be integers"
      else Except.error "TypeError: argument after double-star must be a mapping"
  | .varr _ => Except.error "TypeError: list item is not a mapping"
  | _ => Except.error "TypeError: argument of type int is not iterable"

/-- Python iteration `for item in data` over the decoded JSON value: lists
yield their elements, strings their characters (as one-character strings),
dicts their keys; scalars raise TypeError. -/
def iterElems : Value → Except String (List Value)
  | .varr xs => Except.ok xs
  | .vstr s => Except.ok (s.data.map (fun c => .vstr (String.mk [c])))
  | .vobj fs => Except.ok (fs.map (fun p => .vstr p.1))
  | _ => Except.error "TypeError: object is not iterable"

/-- The `for item in data` loop of load_tasks: decode the items in order,
appending each produced Task; the first exception propagates and discards
everything (the local `tasks` list is never returned on failure). -/
def decodeList (nowUtc : DateTime) : List Value → Except String (List Task)
  | [] => Except.ok []
  | it :: rest => do
      let t ← decodeItem nowUtc it
      let ts ← decodeList nowUtc rest
      Except.ok (t :: ts)

/-- The on-disk store file as load_tasks observes it: absent, present with
content on which json.loads raises JSONDecodeError, or present and decoding to
a JSON value. -/
inductive StoreFile where
  | absent
  | invalidSyntax (bytes : String)
  | parsed (v : Value)

/-- Outcome of load_tasks: the returned list or the propagated exception, plus
the corrupt-file backup copy (its file name and preserved bytes) if one was
made. -/
structure LoadOutcome where
  result : Except String (List Task)
  backup : Option (String × String)

/-- DATA_FILE is `Path.home() / "schedule.json"`; this is its file name. -/
def dataFileName : String := "schedule.json"

/-- Models load_tasks() (lines 103-143). `nowUtc` is the ambient
datetime.utcnow() reading used for regenerated created_at fields; `ts` is
`int(datetime.utcnow().timestamp())` used in the backup name. Missing file:
empty list. JSONDecodeError: backup to `schedule.json.corrupt.<ts>` (copy2
preserves the bytes) and empty list. Any other exception is re-raised. -/
def load_tasks (file : StoreFile) (nowUtc : DateTime) (ts : Nat) : LoadOutcome :=
  match file with
  | .absent => ⟨.ok [], none⟩
  | .invalidSyntax bytes =>
      ⟨.ok [], some (dataFileName ++ ".corrupt." ++ toString ts, bytes)⟩
  | .parsed v =>
      match iterElems v with
      | .error e => ⟨.error e, none⟩
      | .ok items =>
          match decodeList nowUtc items with
          | .error e => ⟨.error e, none⟩
          | .ok tasks => ⟨.ok tasks, none⟩

/-- Models `_task_to_serializable` (lines 76-82): model_dump in field order,
datetimes rendered with isoformat. -/
def _task_to_serializable (t : Task) : List (String × Value) :=
  [("id", .vstr t.id),
   ("title", .vstr t.title),
   ("when", match t.when with | some d => .vstr (isoformat d) | none => .vnull),
   ("category", match t.category with | some c => .vstr c | none => .vnull),
   ("done", .vbool t.done),
   ("created_at", .vstr (isoformat t.created_at))]

/-- Models save_tasks (lines 85-100) at the level of the stored JSON value:
the file json.dumps writes, as the tree a following json.loads returns. -/
def save_tasks (tasks : List Task) : StoreFile :=
  .parsed (.varr (tasks.map (fun t => .vobj (_task_to_serializable t))))

/-- Models line 160 of `add`:
`next_id = (max((t.id for t in tasks), default=0) + 1) if tasks else 1`.
For a non-empty list the generator yields the ids — strings — so max returns a
string and `str + 1` raises TypeError; for an empty list next_id is the int 1. -/
def add_next_id (tasks : List Task) : Except String Int :=
  match tasks with
  | [] => Except.ok 1
  | _ :: _ => Except.error "TypeError: can only concatenate str (not int) to str"

/-- Models the body of the `add` command (lines 146-172) after
`tasks = load_tasks()` and after the optional when-string has been parsed:
computes next_id, then constructs
`Task(id=next_id, title=title, when=parsed_when, category=category)` — an int
id passed to the str-typed field — appends it and saves. -/
def add (tasks : List Task) (title : String) (parsed_when : Option DateTime)
    (category : Option String) (nowUtc : DateTime) : Except String (List Task) := do
  let nid ← add_next_id tasks
  let t ← validateTask
    [("id", .vint nid), ("title", .vstr title),
     ("when", match parsed_when with | some d => .vdt d | none => .vnull),
     ("category", match category with | some c => .vstr c | none => .vnull)]
    nowUtc
  Except.ok (tasks ++ [t])

/-- Validity of an optional datetime field. -/
def OptValid : Option DateTime → Prop
  | none => True
  | some d => d.Valid

instance : DecidablePred OptValid := fun o => by
  cases o <;> unfold OptValid <;> infer_instance

/-- Well-formedness of an in-memory Task: nonempty title (pydantic enforces it
at construction) and datetime fields within Python datetime ranges. -/
def Task.WF (t : Task) : Prop :=
  t.title ≠ "" ∧ t.created_at.Valid ∧ OptValid t.when

instance : DecidablePred Task.WF := fun t => by
  unfold Task.WF
  infer_instance

/-- Serial day number of a civil date (days since 1970-01-01), proleptic
Gregorian; the standard days-from-civil conversion. -/
def daysFromCivil (y m d : Int) : Int :=
  let y2 := if m ≤ 2 then y - 1 else y
  let era := y2 / 400
  let yoe := y2 - era * 400
  let doy := (153 * (m + (if 2 < m then -3 else 9)) + 2) / 5 + d - 1
  let doe := yoe * 365 + yoe / 4 - yoe / 100 + doy
  era * 146097 + doe - 719468

/-- Civil date from serial day number; inverse of `daysFromCivil`. The year of
era is found by an estimate (`doe / 366`, an underestimate by at most one)
adjusted against the days-before-year count. -/
def civilFromDays (z0 : Int) : Int × Int × Int :=
  let z := z0 + 719468
  let era := z / 146097
  let doe := z - era * 146097
  let yoe1 := doe / 366
  let yoe := if doe < 365 * (yoe1 + 1) + (yoe1 + 1) / 4 - (yoe1 + 1) / 100 + (yoe1 + 1) / 400
    then yoe1 else yoe1 + 1
  let doy := doe - (365 * yoe + yoe / 4 - yoe / 100)
  let mp := (5 * doy + 2) / 153
  let d := doy - (153 * mp + 2) / 5 + 1
  let m := mp + (if mp < 10 then 3 else -9)
  let y := yoe + era * 400
  (if m ≤ 2 then y + 1 else y, m, d)

/-- Serial day number of a timestamp's calendar date. -/
def dateSerial (d : DateTime) : Int := daysFromCivil d.year d.month d.day

/-- The timestamp on calendar day `n` (serial) at `anchor`'s time-of-day. -/
def withDate (anchor : DateTime) (n : Int) : DateTime :=
  let c := civilFromDays n
  ⟨c.1.toNat, c.2.1.toNat, c.2.2.toNat, anchor.hour, anchor.minute, anchor.second,
    anchor.microsecond⟩

/-- Python `date.weekday()` on serial day numbers: Monday = 0 … Sunday = 6
(1970-01-01, serial 0, was a Thursday, weekday 3). -/
def weekdayOf (n : Int) : Int := (n + 3) % 7

/-- Whether a string consists of whitespace only (`not date_str.strip()`;
also true for the empty string, covering `not date_str`). -/
def allWhitespace (s : String) : Bool :=
  s.data.all (fun c => decide (c = ' ' ∨ c = '\t' ∨ c = '\n' ∨ c = '\r'))

/-- Recognizer for a full-string bare ISO date `YYYY-MM-DD`. -/
def isoDateOnly (s : String) : Option (Nat × Nat × Nat) := do
  let (y, r1) ← readFixed 4 s.data
  let r2 ← expect '-' r1
  let (mo, r3) ← readFixed 2 r2
  let r4 ← expect '-' r3
  let (da, r5) ← readFixed 2 r4
  if r5 = [] ∧ 1 ≤ y ∧ y ≤ 9999 ∧ 1 ≤ mo ∧ mo ≤ 12 ∧ 1 ≤ da ∧ da ≤ 31 then
    some (y, mo, da)
  else none

/-- Modelled fragment of `parsedatetime.Calendar().parseDT(text, sourceTime)`
on the inputs this development exercises. The library matches relative English
expressions — "tomorrow" moves the source date one day forward keeping the
source's time-of-day (spec section 4.1: a date-only match keeps now's
time-of-day) — and reports no-match (status 0) on ISO-formatted dates such as
"2025-11-15", whose dash separator the locale's date patterns do not cover;
the source comments that the dateutil fallback "handles ISO & other formats"
(line 67). All other text is modelled as no-match. -/
def parseDT (text : String) (sourceTime : DateTime) : DateTime × Nat :=
  if text = "tomorrow" then (withDate sourceTime (dateSerial sourceTime + 1), 1)
  else (sourceTime, 0)

/-- Modelled fragment of `dateutil.parser.parse(text, fuzzy=False)`: a bare
ISO date resolves to that date at midnight — the parser's default fills
missing time components with 00:00:00 — and unparsable text raises
ParserError, modelled as `none`. -/
def dateutil_parse (text : String) : Option DateTime :=
  match isoDateOnly text with
  | some (y, mo, da) => some ⟨y, mo, da, 0, 0, 0, 0⟩
  | none => none

/-- Models parse_datetime (WORKWEEKCODE.py lines 42-73). The Python function
takes only the text: the anchor time is read inside the call
(`sourceTime=datetime.now()`, line 60); that implicit clock reading is
threaded here as the explicit state argument `ambientNow`. -/
def parse_datetime (date_str : String) (ambientNow : DateTime) : Option DateTime :=
  if allWhitespace date_str then none
  else
    let (dt, status) := parseDT date_str ambientNow
    if 0 < status then some dt
    else dateutil_parse date_str

/-- Modelled from the spec (section 3): the recurrence rules. -/
inductive Recurrence where
  | daily
  | weekdays
  | weekly
deriving DecidableEq, Repr

/-- Modelled from the spec: the Task shape the GUI front end uses — the six
persisted fields plus the optional `recurrence` enum of section 3. The
`workweek` module gui.py imports provides it together with
`_occurrences_between`, but both are absent from the sources at hand. -/
structure RTask where
  id : String
  title : String
  when : Option DateTime
  category : Option String
  done : Bool
  created_at : DateTime
  recurrence : Option Recurrence
deriving DecidableEq, Repr

/-- Modelled from the spec (section 3): an Occurrence, the derived read-only
projection of a task onto one calendar date. -/
structure Occurrence where
  id : String
  title : String
  category : Option String
  done : Bool
  when : DateTime
deriving DecidableEq, Repr

/-- Strictly monotone numeric key of a timestamp, for chronological order. -/
def dtKey (d : DateTime) : Nat :=
  ((((((d.year * 13 + d.month) * 32 + d.day) * 24 + d.hour) * 60 + d.minute) * 60 +
    d.second) * 1000000 + d.microsecond)

/-- Occurrence ordering: chronological, ties broken by task id (spec 4.2). -/
def occLe (a b : Occurrence) : Bool :=
  dtKey a.when < dtKey b.when || (dtKey a.when == dtKey b.when && decide (a.id ≤ b.id))

/-- Ordered insertion for `sortOccs`. -/
def insertOcc (o : Occurrence) : List Occurrence → List Occurrence
  | [] => [o]
  | x :: xs => if occLe o x then o :: x :: xs else x :: insertOcc o xs

/-- Insertion sort by `occLe`. -/
def sortOccs : List Occurrence → List Occurrence
  | [] => []
  | x :: xs => insertOcc x (sortOccs xs)

/-- The serial day numbers of the inclusive window [s, e]. -/
def windowDays (s e : Int) : List Int :=
  (List.range (e + 1 - s).toNat).map (fun i => s + i)

/-- Modelled from the spec (section 4.2): the occurrences one task contributes
to the inclusive day window [s, e]: none without `when`; the task itself if
non-recurring and scheduled inside the window; one occurrence per matching
window day at the anchor's time-of-day for daily / weekdays (Mon-Fri) /
weekly (anchor's weekday). -/
def occursFor (t : RTask) (s e : Int) : List Occurrence :=
  match t.when with
  | none => []
  | some w =>
    match t.recurrence with
    | none =>
        if s ≤ dateSerial w ∧ dateSerial w ≤ e then [⟨t.id, t.title, t.category, t.done, w⟩]
        else []
    | some .daily =>
        (windowDays s e).map (fun n => ⟨t.id, t.title, t.category, t.done, withDate w n⟩)
    | some .weekdays =>
        ((windowDays s e).filter (fun n => decide (weekdayOf n ≤ 4))).map
          (fun n => ⟨t.id, t.title, t.category, t.done, withDate w n⟩)
    | some .weekly =>
        ((windowDays s e).filter (fun n => weekdayOf n == weekdayOf (dateSerial w))).map
          (fun n => ⟨t.id, t.title, t.category, t.done, withDate w n⟩)

/-- Modelled from the spec: `_occurrences_between(tasks, start_dt, end_dt)` —
expand every task over the inclusive calendar-day window and return the
occurrences in chronological order, ties broken by id. -/
def _occurrences_between (tasks : List RTask) (start_dt end_dt : DateTime) :
    List Occurrence :=
  sortOccs (tasks.flatMap (fun t => occursFor t (dateSerial start_dt) (dateSerial end_dt)))

theorem pad_length (k n : Nat) : (pad k n).length = k := by
  induction k generalizing n with
  | zero => rfl
  | succ k ih => simp [pad, ih]

theorem digitChar_toNat (m : Nat) (h : m < 10) : (digitChar m).toNat = 48 + m := by
  interval_cases m <;> decide

theorem digitChar_isDigit (m : Nat) (h : m < 10) : isDigitChar (digitChar m) = true := by
  interval_cases m <;> decide

theorem readNat_aux (cs : List Char) (c : Char) :
    readNat (cs ++ [c]) = 10 * readNat cs + (c.toNat - 48) := by
  unfold readNat
  rw [List.foldl_append]
  rfl

theorem readNat_pad (k n : Nat) (h : n < 10 ^ k) : readNat (pad k n) = n := by
  induction k generalizing n with
  | zero =>
    simp only [pow_zero, Nat.lt_one_iff] at h
    subst h
    rfl
  | succ k ih =>
    have hdiv : n / 10 < 10 ^ k := by
      rw [pow_succ] at h
      exact Nat.div_lt_of_lt_mul (by omega)
    have hval : (digitChar (n % 10)).toNat = 48 + n % 10 :=
      digitChar_toNat _ (Nat.mod_lt _ (by omega))
    rw [pad, readNat_aux, ih _ hdiv, hval]
    omega

theorem pad_all_digits (k n : Nat) : (pad k n).all isDigitChar = true := by
  induction k generalizing n with
  | zero => rfl
  | succ k ih =>
    have : isDigitChar (digitChar (n % 10)) = true :=
      digitChar_isDigit _ (Nat.mod_lt _ (by omega))
    simp [pad, List.all_append, ih, this]

theorem readFixed_pad (k n : Nat) (rest : List Char) (h : n < 10 ^ k) :
    readFixed k (pad k n ++ rest) = some (n, rest) := by
  have htake : (pad k n ++ rest).take k = pad k n := by
    have hh := List.take_left (pad k n) rest
    rwa [pad_length] at hh
  have hdrop : (pad k n ++ rest).drop k = rest := by
    have hh := List.drop_left (pad k n) rest
    rwa [pad_length] at hh
  unfold readFixed
  rw [htake, hdrop, if_pos ⟨pad_length k n, pad_all_digits k n⟩, readNat_pad k n h]

theorem expect_cons (c : Char) (xs : List Char) : expect c (c :: xs) = some xs := by
  simp [expect]

theorem iso_if_final (d : DateTime) (hv : d.Valid) (rest : List Char) (hr : rest = []) :
    (if rest = [] ∧ d.Valid then some d else none) = some d := by
  rw [if_pos ⟨hr, hv⟩]

theorem fromisoformat_chars (y mo da h mi sec : Nat) (tail : List Char)
    (hy : y < 10000) (hmo : mo < 100) (hda : da < 100) (hh : h < 100)
    (hmi : mi < 100) (hs : sec < 100) :
    fromisoformat (String.mk (pad 4 y ++ '-' :: (pad 2 mo ++ '-' :: (pad 2 da ++ 'T' ::
        (pad 2 h ++ ':' :: (pad 2 mi ++ ':' :: (pad 2 sec ++ tail))))))) =
      (match tail with
        | [] => some (0, ([] : List Char))
        | c :: cs => if c = '.' then readFixed 6 cs else none).bind
        (fun p => if p.2 = [] ∧ (⟨y, mo, da, h, mi, sec, p.1⟩ : DateTime).Valid
          then some ⟨y, mo, da, h, mi, sec, p.1⟩ else none) := by
  unfold fromisoformat
  simp only [String.data]
  rw [readFixed_pad 4 y _ (by omega)]
  simp only [Option.bind_eq_bind, Option.some_bind, expect_cons]
  rw [readFixed_pad 2 mo _ (by omega)]
  simp only [Option.some_bind, expect_cons]
  rw [readFixed_pad 2 da _ (by omega)]
  simp only [Option.some_bind, expect_cons]
  rw [readFixed_pad 2 h _ (by omega)]
  simp only [Option.some_bind, expect_cons]
  rw [readFixed_pad 2 mi _ (by omega)]
  simp only [Option.some_bind, expect_cons]
  rw [readFixed_pad 2 sec _ (by omega)]
  simp only [Option.some_bind]

theorem fromisoformat_isoformat (d : DateTime) (hv : d.Valid) :
    fromisoformat (isoformat d) = some d := by
  obtain ⟨y, mo, da, h, mi, s, us⟩ := d
  have hv' : 1 ≤ y ∧ y ≤ 9999 ∧ 1 ≤ mo ∧ mo ≤ 12 ∧ 1 ≤ da ∧ da ≤ 31 ∧
      h ≤ 23 ∧ mi ≤ 59 ∧ s ≤ 59 ∧ us ≤ 999999 := hv
  obtain ⟨h1, h2, h3, h4, h5, h6, h7, h8, h9, h10⟩ := hv'
  by_cases hus : us = 0
  · have hchars : isoformat ⟨y, mo, da, h, mi, s, us⟩ =
        String.mk (pad 4 y ++ '-' :: (pad 2 mo ++ '-' :: (pad 2 da ++ 'T' ::
          (pad 2 h ++ ':' :: (pad 2 mi ++ ':' :: (pad 2 s ++ ([] : List Char))))))) := by
      unfold isoformat isoformatChars
      rw [if_pos hus]
    rw [hchars, fromisoformat_chars y mo da h mi s _ (by omega) (by omega) (by omega)
      (by omega) (by omega) (by omega)]
    subst hus
    exact iso_if_final _ hv _ rfl
  · have hchars : isoformat ⟨y, mo, da, h, mi, s, us⟩ =
        String.mk (pad 4 y ++ '-' :: (pad 2 mo ++ '-' :: (pad 2 da ++ 'T' ::
          (pad 2 h ++ ':' :: (pad 2 mi ++ ':' ::
            (pad 2 s ++ '.' :: (pad 6 us ++ ([] : List Char)))))))) := by
      unfold isoformat isoformatChars
      rw [if_neg hus, List.append_nil]
    rw [hchars, fromisoformat_chars y mo da h mi s _ (by omega) (by omega) (by omega)
      (by omega) (by omega) (by omega)]
    have hfrac : (match ('.' :: (pad 6 us ++ ([] : List Char)) : List Char) with
        | [] => some (0, ([] : List Char))
        | c :: cs => if c = '.' then readFixed 6 cs else none) =
          some (us, ([] : List Char)) := by
      show (if ('.' : Char) = '.' then readFixed 6 (pad 6 us ++ []) else none) =
        some (us, ([] : List Char))
      rw [if_pos (rfl : ('.' : Char) = '.'), readFixed_pad 6 us _ (by omega)]
    rw [hfrac]
    exact iso_if_final _ hv _ rfl

theorem isoformat_ne_empty (d : DateTime) : isoformat d ≠ "" := by
  intro hcon
  have hdata : isoformatChars d = [] := congrArg String.data hcon
  have hlen : (isoformatChars d).length = 0 := by rw [hdata]; rfl
  simp [isoformatChars, pad_length] at hlen

theorem decodeList_error (nowUtc : DateTime) (it : Value) (e : String)
    (he : decodeItem nowUtc it = Except.error e) :
    ∀ pre post : List Value, ∃ e', decodeList nowUtc (pre ++ it :: post) = Except.error e' := by
  intro pre
  induction pre with
  | nil =>
    intro post
    exact ⟨e, by simp [decodeList, he]; rfl⟩
  | cons x xs ih =>
    intro post
    rcases hfx : decodeItem nowUtc x with e2 | t
    · exact ⟨e2, by simp [decodeList, hfx]; rfl⟩
    · obtain ⟨e', he'⟩ := ih post
      exact ⟨e', by simp [decodeList, hfx, he']; rfl⟩

theorem decodeList_map_ok (nowUtc : DateTime) (enc : Task → Value) (T : List Task)
    (h : ∀ t ∈ T, decodeItem nowUtc (enc t) = Except.ok t) :
    decodeList nowUtc (T.map enc) = Except.ok T := by
  induction T with
  | nil => rfl
  | cons t ts ih =>
    have h1 := h t (by simp)
    have h2 : ∀ u ∈ ts, decodeItem nowUtc (enc u) = Except.ok u := fun u hu => h u (by simp [hu])
    simp [decodeList, h1, ih h2]
    rfl

theorem load_error_of_item (nowUtc : DateTime) (ts : Nat) (pre post : List Value)
    (it : Value) (e : String) (he : decodeItem nowUtc it = Except.error e) :
    ∃ e', load_tasks (.parsed (.varr (pre ++ it :: post))) nowUtc ts =
      ⟨Except.error e', none⟩ := by
  obtain ⟨e', he'⟩ := decodeList_error nowUtc it e he pre post
  exact ⟨e', by simp [load_tasks, iterElems, he']⟩

theorem decodeItem_serialize (t : Task) (nowUtc : DateTime)
    (htitle : t.title ≠ "") (hwhen : OptValid t.when) (hcreated : t.created_at.Valid) :
    decodeItem nowUtc (.vobj (_task_to_serializable t)) = Except.ok t := by
  obtain ⟨tid, ttitle, twhen, tcat, tdone, tcreated⟩ := t
  simp only [ne_eq] at htitle
  cases twhen with
  | none =>
    cases tcat with
    | none =>
      simp [decodeItem, _task_to_serializable, coerceId, normWhen, normCreated, validateTask,
        lookupField, setField, allowedKeys, truthy, List.find?, htitle,
        isoformat_ne_empty, fromisoformat_isoformat _ hcreated]
      rfl
    | some c =>
      simp [decodeItem, _task_to_serializable, coerceId, normWhen, normCreated, validateTask,
        lookupField, setField, allowedKeys, truthy, List.find?, htitle,
        isoformat_ne_empty, fromisoformat_isoformat _ hcreated]
      rfl
  | some w =>
    have hw : w.Valid := hwhen
    cases tcat with
    | none =>
      simp [decodeItem, _task_to_serializable, coerceId, normWhen, normCreated, validateTask,
        lookupField, setField, allowedKeys, truthy, List.find?, htitle,
        isoformat_ne_empty, fromisoformat_isoformat _ hcreated, fromisoformat_isoformat _ hw]
      rfl
    | some c =>
      simp [decodeItem, _task_to_serializable, coerceId, normWhen, normCreated, validateTask,
        lookupField, setField, allowedKeys, truthy, List.find?, htitle,
        isoformat_ne_empty, fromisoformat_isoformat _ hcreated, fromisoformat_isoformat _ hw]
      rfl

theorem setField_fst (fs : List (String × Value)) (k : String) (v : Value) :
    (setField fs k v).map Prod.fst = fs.map Prod.fst := by
  unfold setField
  rw [List.map_map]
  apply List.map_congr_left
  intro p _
  simp only [Function.comp_apply]
  by_cases hp : p.1 == k
  · simp [hp]
  · simp [hp]

theorem coerceId_fst (fs : List (String × Value)) :
    (coerceId fs).map Prod.fst = fs.map Prod.fst := by
  unfold coerceId
  rcases h : lookupField fs "id" with _ | v
  · simp [h]
  · cases v <;> simp [h, setField_fst]

theorem normWhen_fst (fs : List (String × Value)) :
    (normWhen fs).map Prod.fst = fs.map Prod.fst := by
  unfold normWhen
  rcases h : lookupField fs "when" with _ | w
  · simp [h]
  · by_cases ht : truthy w <;> simp [h, ht, setField_fst]

theorem normCreated_fst (fs : List (String × Value)) (nowUtc : DateTime) :
    (normCreated fs nowUtc).map Prod.fst = fs.map Prod.fst := by
  unfold normCreated
  rcases h : lookupField fs "created_at" with _ | w
  · simp [h]
  · by_cases ht : truthy w <;> simp [h, ht, setField_fst]

theorem validateTask_extra (fs : List (String × Value)) (nowUtc : DateTime) (k : String)
    (hk : k ∈ fs.map Prod.fst) (hnk : allowedKeys.contains k = false) :
    validateTask fs nowUtc = Except.error "ValidationError: extra fields not permitted" := by
  obtain ⟨p, hp, hpk⟩ := List.mem_map.mp hk
  have hfp : allowedKeys.contains p.1 = false := by rw [hpk]; exact hnk
  have hall : fs.all (fun q => allowedKeys.contains q.1) = false := by
    rw [List.all_eq_false]
    exact ⟨p, hp, by simpa using hfp⟩
  unfold validateTask
  rw [hall]
  rfl

theorem decodeItem_vstr_error (nowUtc : DateTime) (s : String) :
    ∃ e, decodeItem nowUtc (.vstr s) = Except.error e := by
  simp only [decodeItem]
  split_ifs <;> exact ⟨_, rfl⟩

/-- C5: a store file whose content fails top-level JSON parsing is copied to a
sibling `schedule.json.corrupt.<unix-timestamp>` backup that preserves the
original bytes, and load_tasks returns an empty collection without raising. -/
theorem C5_corrupt_backup (bytes : String) (nowUtc : DateTime) (ts : Nat) :
    load_tasks (.invalidSyntax bytes) nowUtc ts =
      ⟨Except.ok [], some (dataFileName ++ ".corrupt." ++ toString ts, bytes)⟩ := rfl

/-- C6: if the store file parses structurally (an array) but a record in it
fails Task validation, load_tasks propagates the error and the whole call
aborts: no partial collection is returned, the record is not skipped, and no
backup is made. -/
theorem C6_bad_record_aborts_load (nowUtc : DateTime) (ts : Nat) (pre post : List Value)
    (fs : List (String × Value)) (e : String)
    (he : decodeItem nowUtc (.vobj fs) = Except.error e) :
    ∃ e', load_tasks (.parsed (.varr (pre ++ (Value.vobj fs) :: post))) nowUtc ts =
      ⟨Except.error e', none⟩ :=
  load_error_of_item nowUtc ts pre post _ e he

/-- C6 witness: a record missing the required `title` field aborts the load. -/
theorem C6_bad_record_aborts_load_witness :
    ∃ e', load_tasks (.parsed (.varr [Value.vobj [("id", Value.vstr "1")]]))
      ⟨2025, 1, 1, 0, 0, 0, 0⟩ 0 = ⟨Except.error e', none⟩ :=
  C6_bad_record_aborts_load ⟨2025, 1, 1, 0, 0, 0, 0⟩ 0 [] [] [("id", Value.vstr "1")]
    "ValidationError: title field required" rfl

/-- C9: because the Task model forbids unknown fields, a structurally valid
store file in which some record carries a key outside
id/title/when/category/done/created_at — such as `recurrence` — makes
load_tasks raise and abort the whole load; the record is neither accepted nor
skipped, and no backup is made. -/
theorem C9_unknown_field_aborts_load (nowUtc : DateTime) (ts : Nat) (pre post : List Value)
    (fs : List (String × Value)) (k : String)
    (hk : k ∈ fs.map Prod.fst) (hnk : allowedKeys.contains k = false) :
    ∃ e', load_tasks (.parsed (.varr (pre ++ (Value.vobj fs) :: post))) nowUtc ts =
      ⟨Except.error e', none⟩ := by
  have hkeys : (normCreated (normWhen (coerceId fs)) nowUtc).map Prod.fst = fs.map Prod.fst := by
    rw [normCreated_fst, normWhen_fst, coerceId_fst]
  have he : decodeItem nowUtc (.vobj fs) =
      Except.error "ValidationError: extra fields not permitted" := by
    show validateTask (normCreated (normWhen (coerceId fs)) nowUtc) nowUtc = _
    exact validateTask_extra _ _ k (by rw [hkeys]; exact hk) hnk
  exact load_error_of_item nowUtc ts pre post _ _ he

/-- C9 witness: a record with the `recurrence` field the persisted-file schema
describes aborts the load. -/
theorem C9_unknown_field_aborts_load_witness :
    ∃ e', load_tasks (.parsed (.varr [Value.vobj
        [("id", Value.vstr "1"), ("title", Value.vstr "walk"),
         ("recurrence", Value.vstr "daily")]])) ⟨2025, 1, 1, 0, 0, 0, 0⟩ 0 =
      ⟨Except.error e', none⟩ :=
  C9_unknown_field_aborts_load ⟨2025, 1, 1, 0, 0, 0, 0⟩ 0 [] [] _ "recurrence"
    (by simp) rfl

/-- C4: save followed by load round-trips every well-formed collection
exactly — isoformat keeps full second and microsecond precision and
fromisoformat restores it — hence in particular the collections agree up to
second-precision rounding of the `when`/`created_at` timestamp text. -/
theorem C4_save_load_roundtrip (T : List Task) (nowUtc : DateTime) (ts : Nat)
    (hT : ∀ t ∈ T, t.WF) :
    load_tasks (save_tasks T) nowUtc ts = ⟨Except.ok T, none⟩ := by
  have hdec : ∀ t ∈ T, decodeItem nowUtc (Value.vobj (_task_to_serializable t)) = Except.ok t :=
    fun t ht => decodeItem_serialize t nowUtc (hT t ht).1 (hT t ht).2.2 (hT t ht).2.1
  have hlist := decodeList_map_ok nowUtc (fun t => Value.vobj (_task_to_serializable t)) T hdec
  simp [save_tasks, load_tasks, iterElems, hlist]

/-- C4 witness: a concrete two-task collection (with microseconds, a scheduled
and an unscheduled task) survives save-then-load unchanged. -/
theorem C4_save_load_roundtrip_witness :
    load_tasks (save_tasks
      [⟨"1", "buy milk", some ⟨2025, 11, 15, 9, 30, 0, 123456⟩, some "Personal", false,
        ⟨2025, 1, 1, 12, 0, 0, 0⟩⟩,
       ⟨"2", "quick task", none, none, true, ⟨2024, 12, 31, 23, 59, 59, 999999⟩⟩])
      ⟨2025, 2, 2, 0, 0, 0, 0⟩ 7 =
      ⟨Except.ok
        [⟨"1", "buy milk", some ⟨2025, 11, 15, 9, 30, 0, 123456⟩, some "Personal", false,
          ⟨2025, 1, 1, 12, 0, 0, 0⟩⟩,
         ⟨"2", "quick task", none, none, true, ⟨2024, 12, 31, 23, 59, 59, 999999⟩⟩], none⟩ :=
  C4_save_load_roundtrip _ _ _ (by decide)

/-- C7 evaluation: the add command can never assign an id. With a non-empty
collection, `max((t.id for t in tasks), default=0) + 1` maxes over string ids
and `str + 1` raises TypeError; with an empty collection, the int 1 is passed
to the str-typed `id` field and pydantic v2 raises a ValidationError. -/
theorem C7_add_always_raises (tasks : List Task) (title : String)
    (parsed_when : Option DateTime) (category : Option String) (nowUtc : DateTime) :
    ∃ e, add tasks title parsed_when category nowUtc = Except.error e := by
  cases tasks with
  | nil => exact ⟨"ValidationError: id must be a string", rfl⟩
  | cons t ts => exact ⟨"TypeError: can only concatenate str (not int) to str", rfl⟩

/-- C1 evaluation: the Task model rejects the `recurrence` field the spec
declares. Pydantic's extra=forbid raises at construction with the keyword
arguments NewTaskDialog.create_task passes, and on load of a record carrying
`recurrence`. -/
theorem C1_recurrence_field_rejected :
    validateTask
      [("id", Value.vstr "1"), ("title", Value.vstr "walk"), ("when", Value.vnull),
       ("category", Value.vstr "Personal"), ("recurrence", Value.vstr "daily"),
       ("done", Value.vbool false), ("created_at", Value.vdt ⟨2025, 1, 1, 0, 0, 0, 0⟩)]
      ⟨2025, 1, 1, 0, 0, 0, 0⟩ = Except.error "ValidationError: extra fields not permitted" ∧
    (load_tasks (.parsed (.varr [Value.vobj
        [("id", Value.vstr "1"), ("title", Value.vstr "walk"),
         ("recurrence", Value.vstr "daily")]])) ⟨2025, 1, 1, 0, 0, 0, 0⟩ 0).result =
      Except.error "ValidationError: extra fields not permitted" :=
  ⟨rfl, rfl⟩

theorem load_iter_first_error (nowUtc : DateTime) (ts : Nat) (v it : Value)
    (rest : List Value) (hiter : iterElems v = Except.ok (it :: rest)) (e : String)
    (he : decodeItem nowUtc it = Except.error e) :
    ∃ e', load_tasks (.parsed v) nowUtc ts = ⟨Except.error e', none⟩ := by
  obtain ⟨e', he'⟩ := decodeList_error nowUtc it e he [] rest
  have he'' : decodeList nowUtc (it :: rest) = Except.error e' := he'
  exact ⟨e', by simp [load_tasks, hiter, he'']⟩

/-- C10 counterexample: the store content `""` is valid JSON and not an array
of record objects, yet load_tasks does not raise — iterating the empty string
runs the record loop zero times, so an empty collection is returned (and no
backup is made), contrary to the claim. -/
theorem C10_counterexample_empty_string :
    load_tasks (.parsed (.vstr "")) ⟨2025, 1, 1, 0, 0, 0, 0⟩ 0 = ⟨Except.ok [], none⟩ := rfl

/-- C10 amended: the corrupt-file recovery path triggers only on JSON syntax
errors. A store file holding a valid non-array JSON value never creates a
`.corrupt` backup; load_tasks raises a TypeError for a bare number, boolean,
null, non-empty string, or non-empty object, while for the two vacuously
iterable values — the empty string and the empty object — the record loop
never runs and an empty collection is returned. -/
theorem C10_nonarray_never_backs_up (v : Value) (nowUtc : DateTime) (ts : Nat)
    (hv : ∀ xs, v ≠ Value.varr xs) :
    (load_tasks (.parsed v) nowUtc ts).backup = none ∧
      ((v = .vstr "" ∨ v = .vobj []) →
        load_tasks (.parsed v) nowUtc ts = ⟨Except.ok [], none⟩) ∧
      (v ≠ .vstr "" → v ≠ .vobj [] →
        ∃ e, (load_tasks (.parsed v) nowUtc ts).result = Except.error e) := by
  cases v with
  | varr xs => exact absurd rfl (hv xs)
  | vnull =>
    refine ⟨rfl, ?_, fun _ _ => ⟨_, rfl⟩⟩
    rintro (h | h) <;> simp at h
  | vbool b =>
    refine ⟨rfl, ?_, fun _ _ => ⟨_, rfl⟩⟩
    rintro (h | h) <;> simp at h
  | vint n =>
    refine ⟨rfl, ?_, fun _ _ => ⟨_, rfl⟩⟩
    rintro (h | h) <;> simp at h
  | vdt d =>
    refine ⟨rfl, ?_, fun _ _ => ⟨_, rfl⟩⟩
    rintro (h | h) <;> simp at h
  | vstr s =>
    refine ⟨?_, ?_, ?_⟩
    · rcases hdl : decodeList nowUtc (s.data.map (fun c => Value.vstr (String.mk [c])))
        with e | tasks
      · simp [load_tasks, iterElems, hdl]
      · simp [load_tasks, iterElems, hdl]
    · rintro (h | h)
      · injection h with hs
        subst hs
        rfl
      · simp at h
    · intro hne _
      rcases hs : s.data with _ | ⟨c, cs⟩
      · exfalso
        apply hne
        have h2 : s = String.mk s.data := rfl
        rw [hs] at h2
        exact congrArg Value.vstr h2
      · obtain ⟨e, he⟩ := decodeItem_vstr_error nowUtc (String.mk [c])
        have hiter : iterElems (.vstr s) = Except.ok ((Value.vstr (String.mk [c])) ::
            cs.map (fun c => Value.vstr (String.mk [c]))) := by
          simp [iterElems, hs]
        obtain ⟨e', he'⟩ := load_iter_first_error nowUtc ts _ _ _ hiter e he
        exact ⟨e', by rw [he']⟩
  | vobj fs =>
    refine ⟨?_, ?_, ?_⟩
    · rcases hdl : decodeList nowUtc (fs.map (fun p => Value.vstr p.1)) with e | tasks
      · simp [load_tasks, iterElems, hdl]
      · simp [load_tasks, iterElems, hdl]
    · rintro (h | h)
      · simp at h
      · injection h with hfs
        subst hfs
        rfl
    · intro _ hne
      rcases hfs : fs with _ | ⟨p, rest⟩
      · exact absurd (by rw [hfs]) hne
      · obtain ⟨e, he⟩ := decodeItem_vstr_error nowUtc p.1
        have hiter : iterElems (.vobj fs) = Except.ok ((Value.vstr p.1) ::
            rest.map (fun p => Value.vstr p.1)) := by
          simp [iterElems, hfs]
        obtain ⟨e', he'⟩ := load_iter_first_error nowUtc ts _ _ _ hiter e he
        exact ⟨e', by rw [← hfs, he']⟩

/-- C10 witness: with the bare number 5 as store content, no backup is made
and load raises. -/
theorem C10_nonarray_never_backs_up_witness :
    (load_tasks (.parsed (.vint 5)) ⟨2025, 1, 1, 0, 0, 0, 0⟩ 0).backup = none ∧
      (((Value.vint 5) = .vstr "" ∨ (Value.vint 5) = .vobj []) →
        load_tasks (.parsed (.vint 5)) ⟨2025, 1, 1, 0, 0, 0, 0⟩ 0 = ⟨Except.ok [], none⟩) ∧
      ((Value.vint 5) ≠ .vstr "" → (Value.vint 5) ≠ .vobj [] →
        ∃ e, (load_tasks (.parsed (.vint 5)) ⟨2025, 1, 1, 0, 0, 0, 0⟩ 0).result =
          Except.error e) :=
  C10_nonarray_never_backs_up (.vint 5) ⟨2025, 1, 1, 0, 0, 0, 0⟩ 0
    (fun _ h => Value.noConfusion h)

set_option maxHeartbeats 2000000 in
theorem calendar_assemble
    (z era doe yoe1 yoe doy mp m d y : Int)
    (hera : era = (z + 719468) / 146097)
    (hdoe : doe = z + 719468 - era * 146097)
    (hyoe1 : yoe1 = doe / 366)
    (hyoe : yoe = if doe < 365 * (yoe1 + 1) + (yoe1 + 1) / 4 - (yoe1 + 1) / 100 + (yoe1 + 1) / 400
      then yoe1 else yoe1 + 1)
    (hdoy : doy = doe - (365 * yoe + yoe / 4 - yoe / 100))
    (hmp : mp = (5 * doy + 2) / 153)
    (hd : d = doy - (153 * mp + 2) / 5 + 1)
    (hm : m = mp + (if mp < 10 then 3 else -9))
    (hy : y = yoe + era * 400) :
    daysFromCivil (if m ≤ 2 then y + 1 else y) m d = z ∧
      1 ≤ m ∧ m ≤ 12 ∧ 1 ≤ d ∧ d ≤ 31 ∧
      (-719468 ≤ z → 0 ≤ (if m ≤ 2 then y + 1 else y)) := by
  have hdoe0 : 0 ≤ doe := by omega
  have hdoe1 : doe ≤ 146096 := by omega
  have hyoe10 : 0 ≤ yoe1 := by omega
  have hyoe11 : yoe1 ≤ 399 := by omega
  unfold daysFromCivil
  dsimp only
  split_ifs at hyoe with hadj
  · -- yoe = yoe1 (subst eliminates yoe1, leaving yoe)
    subst hyoe
    have hm4 : yoe / 4 ≤ (yoe + 1) / 4 ∧ (yoe + 1) / 4 ≤ yoe / 4 + 1 := by omega
    have hm100 : yoe / 100 ≤ (yoe + 1) / 100 ∧ (yoe + 1) / 100 ≤ yoe / 100 + 1 := by omega
    have hdb : 0 ≤ doy ∧ doy ≤ 365 := by
      by_cases h398 : yoe ≤ 398
      · have h3 : (yoe + 1) / 400 = 0 := by omega
        omega
      · have h399 : yoe = 399 := by omega
        omega
    have hmpb : 0 ≤ mp ∧ mp ≤ 11 := by omega
    by_cases hmp10 : mp < 10
    · have hmv : m = mp + 3 := by rw [hm, if_pos hmp10]
      have hm2 : ¬(m ≤ 2) := by omega
      rw [if_neg hm2, if_neg hm2, if_pos (show 2 < m by omega)]
      rw [show m + -3 = mp by omega]
      have hq : y / 400 = era := by omega
      rw [hq]
      rw [show y - era * 400 = yoe by omega]
      omega
    · have hmv : m = mp + -9 := by rw [hm, if_neg hmp10]
      have hm2 : m ≤ 2 := by omega
      rw [if_pos hm2, if_pos hm2, if_neg (show ¬(2 < m) by omega)]
      rw [show m + 9 = mp by omega]
      rw [show y + 1 - 1 = y by ring]
      have hq : y / 400 = era := by omega
      rw [hq]
      rw [show y - era * 400 = yoe by omega]
      omega
  · -- yoe = yoe1 + 1
    subst hyoe
    have hm400 : 0 ≤ (yoe1 + 1) / 400 := by omega
    have h398 : yoe1 ≤ 398 := by
      by_cases h : yoe1 ≤ 398
      · exact h
      · have h399 : yoe1 = 399 := by omega
        have : (yoe1 + 1) / 4 = 100 := by omega
        have : (yoe1 + 1) / 100 = 4 := by omega
        have : (yoe1 + 1) / 400 = 1 := by omega
        omega
    have hdb : 0 ≤ doy ∧ doy ≤ 365 := by omega
    have hmpb : 0 ≤ mp ∧ mp ≤ 11 := by omega
    by_cases hmp10 : mp < 10
    · have hmv : m = mp + 3 := by rw [hm, if_pos hmp10]
      have hm2 : ¬(m ≤ 2) := by omega
      rw [if_neg hm2, if_neg hm2, if_pos (show 2 < m by omega)]
      rw [show m + -3 = mp by omega]
      have hq : y / 400 = era := by omega
      rw [hq]
      rw [show y - era * 400 = yoe1 + 1 by omega]
      omega
    · have hmv : m = mp + -9 := by rw [hm, if_neg hmp10]
      have hm2 : m ≤ 2 := by omega
      rw [if_pos hm2, if_pos hm2, if_neg (show ¬(2 < m) by omega)]
      rw [show m + 9 = mp by omega]
      rw [show y + 1 - 1 = y by ring]
      have hq : y / 400 = era := by omega
      rw [hq]
      rw [show y - era * 400 = yoe1 + 1 by omega]
      omega

theorem dfc_cfd (z : Int) :
    daysFromCivil (civilFromDays z).1 (civilFromDays z).2.1 (civilFromDays z).2.2 = z :=
  (calendar_assemble z _ _ _ _ _ _ _ _ _ rfl rfl rfl rfl rfl rfl rfl rfl rfl).1

theorem cfd_bounds (z : Int) :
    1 ≤ (civilFromDays z).2.1 ∧ (civilFromDays z).2.1 ≤ 12 ∧
      1 ≤ (civilFromDays z).2.2 ∧ (civilFromDays z).2.2 ≤ 31 ∧
      (-719468 ≤ z → 0 ≤ (civilFromDays z).1) :=
  (calendar_assemble z _ _ _ _ _ _ _ _ _ rfl rfl rfl rfl rfl rfl rfl rfl rfl).2

theorem dateSerial_withDate (w : DateTime) (n : Int) (hn : -719468 ≤ n) :
    dateSerial (withDate w n) = n := by
  have h := dfc_cfd n
  have hb := cfd_bounds n
  have hy0 : 0 ≤ (civilFromDays n).1 := hb.2.2.2.2 hn
  have hm0 : 0 ≤ (civilFromDays n).2.1 := by omega
  have hd0 : 0 ≤ (civilFromDays n).2.2 := by omega
  unfold dateSerial withDate
  dsimp only
  rw [Int.toNat_of_nonneg hy0, Int.toNat_of_nonneg hm0, Int.toNat_of_nonneg hd0]
  exact h

theorem withDate_time (w : DateTime) (n : Int) :
    (withDate w n).hour = w.hour ∧ (withDate w n).minute = w.minute ∧
      (withDate w n).second = w.second ∧ (withDate w n).microsecond = w.microsecond :=
  ⟨rfl, rfl, rfl, rfl⟩

theorem dateSerial_lower (d : DateTime) (hv : d.Valid) : -719468 ≤ dateSerial d := by
  have hv' : 1 ≤ d.year ∧ d.year ≤ 9999 ∧ 1 ≤ d.month ∧ d.month ≤ 12 ∧ 1 ≤ d.day ∧
      d.day ≤ 31 := ⟨hv.1, hv.2.1, hv.2.2.1, hv.2.2.2.1, hv.2.2.2.2.1, hv.2.2.2.2.2.1⟩
  unfold dateSerial daysFromCivil
  dsimp only
  split_ifs <;> omega

theorem insertOcc_length (o : Occurrence) (l : List Occurrence) :
    (insertOcc o l).length = l.length + 1 := by
  induction l with
  | nil => rfl
  | cons x xs ih =>
    unfold insertOcc
    by_cases h : occLe o x
    · simp [h]
    · simp [h, ih]

theorem insertOcc_mem (a o : Occurrence) (l : List Occurrence) :
    a ∈ insertOcc o l ↔ a = o ∨ a ∈ l := by
  induction l with
  | nil => simp [insertOcc]
  | cons x xs ih =>
    unfold insertOcc
    by_cases h : occLe o x
    · simp [h]
    · simp [h, ih]
      tauto

theorem sortOccs_length (l : List Occurrence) : (sortOccs l).length = l.length := by
  induction l with
  | nil => rfl
  | cons x xs ih => simp [sortOccs, insertOcc_length, ih]

theorem sortOccs_mem (a : Occurrence) (l : List Occurrence) :
    a ∈ sortOccs l ↔ a ∈ l := by
  induction l with
  | nil => simp [sortOccs]
  | cons x xs ih => simp [sortOccs, insertOcc_mem, ih]

theorem filter_of_map {α β : Type} (f : α → β) (p : β → Bool) (l : List α) :
    (l.map f).filter p = (l.filter (fun a => p (f a))).map f := by
  induction l with
  | nil => rfl
  | cons x xs ih =>
    simp only [List.map_cons, List.filter_cons]
    by_cases h : p (f x) <;> simp [h, ih]

theorem filter_range14 (s wd : Int) (h0 : 0 ≤ wd) (h7 : wd < 7) :
    ((List.range 14).filter (fun i : Nat => weekdayOf (s + ↑i) == wd)).length = 2 := by
  have hcong : ∀ i ∈ List.range 14,
      (weekdayOf (s + (↑i : Int)) == wd) = (weekdayOf ((s % 7) + ↑i) == wd) := by
    intro i _
    have heq : weekdayOf (s + ↑i) = weekdayOf ((s % 7) + ↑i) := by
      unfold weekdayOf
      omega
    rw [heq]
  rw [List.filter_congr hcong]
  have h1 : 0 ≤ s % 7 := Int.emod_nonneg s (by norm_num)
  have h2 : s % 7 < 7 := Int.emod_lt_of_pos s (by norm_num)
  obtain ⟨r, hr, hr1, hr2⟩ : ∃ r, s % 7 = r ∧ 0 ≤ r ∧ r < 7 := ⟨s % 7, rfl, h1, h2⟩
  simp only [hr]
  interval_cases r <;> interval_cases wd <;> decide

/-- C2: for a task with recurrence = weekly whose `when` anchor is a Monday at
09:00, expanding (the collection containing) it over any 14-day window
produces exactly two occurrences, both on Mondays at 09:00. -/
theorem C2_weekly_14day_two_mondays (t : RTask) (w start_dt end_dt : DateTime)
    (hrec : t.recurrence = some .weekly) (hw : t.when = some w)
    (hmon : weekdayOf (dateSerial w) = 0) (hh9 : w.hour = 9) (hm0 : w.minute = 0)
    (hsv : start_dt.Valid)
    (hwin : dateSerial end_dt = dateSerial start_dt + 13) :
    (_occurrences_between [t] start_dt end_dt).length = 2 ∧
      ∀ o ∈ _occurrences_between [t] start_dt end_dt,
        weekdayOf (dateSerial o.when) = 0 ∧ o.when.hour = 9 ∧ o.when.minute = 0 := by
  have hflat : [t].flatMap
      (fun u => occursFor u (dateSerial start_dt) (dateSerial end_dt)) =
      occursFor t (dateSerial start_dt) (dateSerial end_dt) := by
    simp
  have hocc : occursFor t (dateSerial start_dt) (dateSerial end_dt) =
      ((windowDays (dateSerial start_dt) (dateSerial end_dt)).filter
        (fun n => weekdayOf n == weekdayOf (dateSerial w))).map
        (fun n => ⟨t.id, t.title, t.category, t.done, withDate w n⟩) := by
    unfold occursFor
    rw [hw, hrec]
  have hwd : windowDays (dateSerial start_dt) (dateSerial end_dt) =
      (List.range 14).map (fun i => dateSerial start_dt + ↑i) := by
    unfold windowDays
    rw [hwin, show dateSerial start_dt + 13 + 1 - dateSerial start_dt = (14 : Int) by ring]
    rfl
  have hlist : _occurrences_between [t] start_dt end_dt =
      sortOccs (((List.range 14).filter
        (fun i : Nat => weekdayOf (dateSerial start_dt + ↑i) == weekdayOf (dateSerial w))).map
        (fun i : Nat => ⟨t.id, t.title, t.category, t.done,
          withDate w (dateSerial start_dt + ↑i)⟩)) := by
    unfold _occurrences_between
    rw [hflat, hocc, hwd, filter_of_map, List.map_map]
    rfl
  have hlow : -719468 ≤ dateSerial start_dt := dateSerial_lower start_dt hsv
  constructor
  · rw [hlist, sortOccs_length, List.length_map]
    rw [show weekdayOf (dateSerial w) = (0 : Int) from hmon]
    exact filter_range14 (dateSerial start_dt) 0 le_rfl (by norm_num)
  · intro o ho
    rw [hlist, sortOccs_mem] at ho
    obtain ⟨i, hi, hoi⟩ := List.mem_map.mp ho
    obtain ⟨hir, hip⟩ := List.mem_filter.mp hi
    have hiwd : weekdayOf (dateSerial start_dt + ↑i) = 0 := by
      have := of_decide_eq_true hip
      omega
    have hser : dateSerial (withDate w (dateSerial start_dt + ↑i)) =
        dateSerial start_dt + ↑i :=
      dateSerial_withDate w _ (by omega)
    refine ⟨?_, ?_, ?_⟩
    · rw [← hoi]
      show weekdayOf (dateSerial (withDate w (dateSerial start_dt + ↑i))) = 0
      rw [hser]
      exact hiwd
    · rw [← hoi]
      show (withDate w (dateSerial start_dt + ↑i)).hour = 9
      rw [(withDate_time w _).1]
      exact hh9
    · rw [← hoi]
      show (withDate w (dateSerial start_dt + ↑i)).minute = 0
      rw [(withDate_time w _).2.1]
      exact hm0

/-- C2 witness: a weekly task anchored at Monday 2025-11-17 09:00, expanded
over the 14-day window 2025-11-10 .. 2025-11-23. -/
theorem C2_weekly_14day_two_mondays_witness :
    (_occurrences_between [⟨"1", "standup", some ⟨2025, 11, 17, 9, 0, 0, 0⟩, none, false,
        ⟨2025, 1, 1, 0, 0, 0, 0⟩, some .weekly⟩] ⟨2025, 11, 10, 8, 0, 0, 0⟩
        ⟨2025, 11, 23, 8, 0, 0, 0⟩).length = 2 ∧
      ∀ o ∈ _occurrences_between [⟨"1", "standup", some ⟨2025, 11, 17, 9, 0, 0, 0⟩, none,
          false, ⟨2025, 1, 1, 0, 0, 0, 0⟩, some .weekly⟩] ⟨2025, 11, 10, 8, 0, 0, 0⟩
          ⟨2025, 11, 23, 8, 0, 0, 0⟩,
        weekdayOf (dateSerial o.when) = 0 ∧ o.when.hour = 9 ∧ o.when.minute = 0 :=
  C2_weekly_14day_two_mondays _ _ _ _ rfl rfl (by decide) rfl rfl (by decide) (by decide)

/-- C3 counterexample: the resolver's result is not determined by its explicit
arguments — parse_datetime takes only the text and reads datetime.now() inside
the call — so "tomorrow" resolves differently under two different ambient clock
readings; `now` is not an explicit input of the resolve operation. -/
theorem C3_counterexample_implicit_now :
    parse_datetime "tomorrow" ⟨2025, 1, 1, 10, 0, 0, 0⟩ ≠
      parse_datetime "tomorrow" ⟨2025, 1, 2, 10, 0, 0, 0⟩ := by decide

/-- C3 amended: determinism holds only relative to the ambient clock the code
reads implicitly: parse_datetime is a function of the text and the value
datetime.now() returns during the call, so two calls with the same text under
the same ambient time resolve identically; but `now` is that implicit reading,
not an explicit parameter, and the result genuinely depends on it. -/
theorem C3_deterministic_given_ambient (text : String) (now1 now2 : DateTime)
    (h : now1 = now2) :
    parse_datetime text now1 = parse_datetime text now2 ∧
      ∃ t a b, parse_datetime t a ≠ parse_datetime t b :=
  ⟨by rw [h], "tomorrow", ⟨2025, 1, 1, 10, 0, 0, 0⟩, ⟨2025, 1, 2, 10, 0, 0, 0⟩, by decide⟩

/-- C3 witness: instantiating the amended determinism statement. -/
theorem C3_deterministic_given_ambient_witness :
    parse_datetime "2025-11-15" ⟨2025, 1, 1, 0, 0, 0, 0⟩ =
        parse_datetime "2025-11-15" ⟨2025, 1, 1, 0, 0, 0, 0⟩ ∧
      ∃ t a b, parse_datetime t a ≠ parse_datetime t b :=
  C3_deterministic_given_ambient "2025-11-15" _ _ rfl

/-- C8: for every ambient now, resolving "2025-11-15" succeeds and returns
midnight local time on 2025-11-15: the natural-language strategy reports
no-match for the bare ISO date, so the strict dateutil fallback parses it, and
that parser defaults the missing time-of-day to 00:00:00 regardless of now. -/
theorem C8_iso_date_to_midnight (ambientNow : DateTime) :
    parse_datetime "2025-11-15" ambientNow = some ⟨2025, 11, 15, 0, 0, 0, 0⟩ := rfl

end WorkWeek
